import Mathlib

/-!
# Verification of the meristem-tooling benchmark core

Shallow embedding of the benchmark measurement and regression-gating engine:
the cost/benefit wasm gate, latency statistics and the two percentile helpers,
throughput ranking, round-aggregation statistics, the baseline comparison
decoder, the regression gate, the single-request executor and the concurrent
dispatcher.  JavaScript numbers are modelled as rationals (ℚ); the only place a
square root occurs (coefficient of variation) is modelled in ℝ.
-/

namespace Meristem

/-! ## Cost/benefit gate (src/bench/wasm-gate.ts) -/

structure WasmTiming where
  marshalMs : ℚ
  computeMs : ℚ
  unmarshalMs : ℚ
deriving DecidableEq

structure WasmBenefit where
  throughputDeltaRatio : ℚ
  p95DeltaRatio : ℚ
  cpuTimeDeltaRatio : ℚ
deriving DecidableEq

structure WasmGateResult where
  totalMs : ℚ
  serializationRatio : ℚ
  noEndpointBenefit : Bool
  shouldDisable : Bool
deriving DecidableEq

/-- Model of `clampToZero` from wasm-gate.ts: `value > 0 ? value : 0`. -/
def clampToZero (value : ℚ) : ℚ := if value > 0 then value else 0

/-- Model of `hasEndpointBenefit` from wasm-gate.ts. -/
def hasEndpointBenefit (benefit : WasmBenefit) : Bool :=
  decide (benefit.throughputDeltaRatio > 0) ||
    decide (benefit.p95DeltaRatio < 0) ||
      decide (benefit.cpuTimeDeltaRatio < 0)

/-- Model of `evaluateWasmGate` from wasm-gate.ts. -/
def evaluateWasmGate (timing : WasmTiming) (benefit : WasmBenefit) : WasmGateResult :=
  let marshalMs := clampToZero timing.marshalMs
  let computeMs := clampToZero timing.computeMs
  let unmarshalMs := clampToZero timing.unmarshalMs
  let totalMs := marshalMs + computeMs + unmarshalMs
  let serializationMs := marshalMs + unmarshalMs
  let serializationRatio := if totalMs = 0 then 0 else serializationMs / totalMs
  let noEndpointBenefit := !hasEndpointBenefit benefit
  let shouldDisable := decide (serializationRatio > 0.4) && noEndpointBenefit
  ⟨totalMs, serializationRatio, noEndpointBenefit, shouldDisable⟩

/-! ## Latency statistics (http-benchmark, src/unnamed/part_003) -/

structure LatencyStats where
  min : ℚ
  max : ℚ
  avg : ℚ
  p50 : ℚ
  p95 : ℚ
  p99 : ℚ
deriving DecidableEq

/-- JavaScript indexing `l[i] ?? fallback` for an integer index: out-of-range
(negative included) yields the fallback. -/
def jsIndex (l : List ℚ) (i : ℤ) : Option ℚ :=
  if h : 0 ≤ i ∧ i.toNat < l.length then some (l.get ⟨i.toNat, h.2⟩) else none

/-- Ascending numeric sort, the model of `[...samples].sort((a, b) => a - b)`. -/
def ascSort (samples : List ℚ) : List ℚ :=
  List.insertionSort (· ≤ ·) samples

/-- The nearest-rank-with-ceiling `percentile` helper of http-benchmark
(part_003 line 81): `index = min(n - 1, max(0, ceil(n * ratio) - 1))`. -/
def percentile (sorted : List ℚ) (ratio : ℚ) : ℚ :=
  if sorted.length = 0 then 0
  else
    let index : ℤ :=
      min ((sorted.length : ℤ) - 1) (max 0 (⌈(sorted.length : ℚ) * ratio⌉ - 1))
    (jsIndex sorted index).getD 0

/-- Model of `computeLatencyStats` from http-benchmark (part_003 line 89). -/
def computeLatencyStats (samples : List ℚ) : LatencyStats :=
  if samples.length = 0 then ⟨0, 0, 0, 0, 0, 0⟩
  else
    let sorted := ascSort samples
    let total := sorted.sum
    { min := (jsIndex sorted 0).getD 0
      max := (jsIndex sorted ((sorted.length : ℤ) - 1)).getD 0
      avg := total / (sorted.length : ℚ)
      p50 := percentile sorted 0.5
      p95 := percentile sorted 0.95
      p99 := percentile sorted 0.99 }

namespace MnetMatrix

/-- The interpolating `percentile` helper of the matrix runner
(src/tests/mnet-e2e/matrix.ts line 188): linear interpolation between the
elements at `floor(rank)` and `ceil(rank)` where `rank = (p / 100) * (n - 1)`. -/
def percentile (values : List ℚ) (p : ℚ) : ℚ :=
  if values.length = 0 then 0
  else
    let sorted := ascSort values
    let rank : ℚ := (p / 100) * ((sorted.length : ℚ) - 1)
    let low : ℤ := ⌊rank⌋
    let high : ℤ := ⌈rank⌉
    if low = high then (jsIndex sorted low).getD 0
    else
      let lowValue := (jsIndex sorted low).getD 0
      let highValue := (jsIndex sorted high).getD lowValue
      lowValue + (highValue - lowValue) * (rank - (low : ℚ))

end MnetMatrix

/-! ## Percentile index lemmas -/

/-- The clamped nearest-rank index computed inside `percentile`. -/
def pIndex (n : ℕ) (ratio : ℚ) : ℤ :=
  min ((n : ℤ) - 1) (max 0 (⌈(n : ℚ) * ratio⌉ - 1))

lemma pIndex_nonneg {n : ℕ} (hn : 0 < n) (ratio : ℚ) : 0 ≤ pIndex n ratio := by
  have h1 : (0 : ℤ) ≤ (n : ℤ) - 1 := by omega
  exact le_min h1 (le_max_left _ _)

lemma pIndex_le (n : ℕ) (ratio : ℚ) : pIndex n ratio ≤ (n : ℤ) - 1 :=
  min_le_left _ _

lemma pIndex_mono (n : ℕ) {r1 r2 : ℚ} (h : r1 ≤ r2) : pIndex n r1 ≤ pIndex n r2 := by
  have hc : ⌈(n : ℚ) * r1⌉ ≤ ⌈(n : ℚ) * r2⌉ :=
    Int.ceil_le_ceil (mul_le_mul_of_nonneg_left h (by positivity))
  unfold pIndex
  omega

lemma jsIndex_getD_of_range (l : List ℚ) (i : ℤ) (h0 : 0 ≤ i)
    (hlt : i.toNat < l.length) : (jsIndex l i).getD 0 = l.getD i.toNat 0 := by
  rw [jsIndex, dif_pos ⟨h0, hlt⟩, Option.getD_some, List.getD_eq_getElem l 0 hlt,
    List.get_eq_getElem]

lemma sorted_getD_mono (l : List ℚ) (hs : l.Sorted (· ≤ ·)) {i j : ℕ}
    (hij : i ≤ j) (hj : j < l.length) : l.getD i 0 ≤ l.getD j 0 := by
  have hi : i < l.length := lt_of_le_of_lt hij hj
  rw [List.getD_eq_getElem l 0 hi, List.getD_eq_getElem l 0 hj]
  have := hs.rel_get_of_le (a := ⟨i, hi⟩) (b := ⟨j, hj⟩) hij
  simpa using this

lemma percentile_eq_getD (l : List ℚ) (hne : l ≠ []) (ratio : ℚ) :
    percentile l ratio = l.getD (pIndex l.length ratio).toNat 0 := by
  have hn : 0 < l.length := List.length_pos.2 hne
  have h0 : 0 ≤ pIndex l.length ratio := pIndex_nonneg hn ratio
  have hlt : (pIndex l.length ratio).toNat < l.length := by
    have := pIndex_le l.length ratio
    omega
  rw [percentile, if_neg (by omega)]
  exact jsIndex_getD_of_range l _ h0 hlt

lemma percentile_mono (l : List ℚ) (hs : l.Sorted (· ≤ ·)) (hne : l ≠ [])
    {r1 r2 : ℚ} (h : r1 ≤ r2) : percentile l r1 ≤ percentile l r2 := by
  have hn : 0 < l.length := List.length_pos.2 hne
  rw [percentile_eq_getD l hne, percentile_eq_getD l hne]
  refine sorted_getD_mono l hs (Int.toNat_le_toNat (pIndex_mono l.length h)) ?_
  have := pIndex_le l.length r2
  omega

lemma getD_zero_le_percentile (l : List ℚ) (hs : l.Sorted (· ≤ ·)) (hne : l ≠ [])
    (ratio : ℚ) : l.getD 0 0 ≤ percentile l ratio := by
  have hn : 0 < l.length := List.length_pos.2 hne
  rw [percentile_eq_getD l hne]
  refine sorted_getD_mono l hs (Nat.zero_le _) ?_
  have := pIndex_le l.length ratio
  omega

lemma percentile_le_getD_last (l : List ℚ) (hs : l.Sorted (· ≤ ·)) (hne : l ≠ [])
    (ratio : ℚ) : percentile l ratio ≤ l.getD (l.length - 1) 0 := by
  have hn : 0 < l.length := List.length_pos.2 hne
  rw [percentile_eq_getD l hne]
  have h1 := pIndex_le l.length ratio
  have h0 := pIndex_nonneg hn ratio
  refine sorted_getD_mono l hs (by omega) (by omega)

/-! ## Round-aggregation statistics (bench pack, part_007; reliability-run.ts) -/

structure BaselineStats where
  rounds : ℕ
  averageOpsPerSecond : ℚ
  medianOpsPerSecond : ℚ
  trimmedMeanOpsPerSecond : ℚ
  minOpsPerSecond : ℚ
  maxOpsPerSecond : ℚ
  coefficientOfVariation : ℝ

/-- Model of `calculateStats` from the bench-pack command (part_007 line 587); an empty
sample list throws. -/
noncomputable def calculateStats (values : List ℚ) : Except String BaselineStats :=
  if values.length = 0 then .error "cannot summarize empty values"
  else
    let sorted := ascSort values
    let rounds := sorted.length
    let sum := sorted.sum
    let averageOpsPerSecond := sum / (rounds : ℚ)
    let medianOpsPerSecond :=
      if rounds % 2 = 1 then sorted.getD ((rounds - 1) / 2) 0
      else (sorted.getD (rounds / 2 - 1) 0 + sorted.getD (rounds / 2) 0) / 2
    let trimmedValues := if rounds > 2 then (sorted.take (rounds - 1)).drop 1 else sorted
    let trimmedMeanOpsPerSecond := trimmedValues.sum / (trimmedValues.length : ℚ)
    let minOpsPerSecond := sorted.getD 0 0
    let maxOpsPerSecond := sorted.getD (rounds - 1) 0
    let variance := (sorted.map (fun value => (value - averageOpsPerSecond) ^ 2)).sum / (rounds : ℚ)
    let coefficientOfVariation : ℝ :=
      if averageOpsPerSecond = 0 then 0
      else Real.sqrt (variance : ℝ) / (averageOpsPerSecond : ℝ)
    .ok ⟨rounds, averageOpsPerSecond, medianOpsPerSecond, trimmedMeanOpsPerSecond,
      minOpsPerSecond, maxOpsPerSecond, coefficientOfVariation⟩

/-- Model of `calculateMedian` from reliability-run.ts line 263; an empty list throws. -/
def calculateMedian (values : List ℚ) : Except String ℚ :=
  if values.length = 0 then .error "cannot compute median of empty values"
  else
    let sorted := ascSort values
    let middle := sorted.length / 2
    if sorted.length % 2 = 0 then
      .ok ((sorted.getD (middle - 1) 0 + sorted.getD middle 0) / 2)
    else .ok (sorted.getD middle 0)

/-- Model of `calculateTrimmedMean` from reliability-run.ts line 275. -/
def calculateTrimmedMean (values : List ℚ) : ℚ :=
  if values.length ≤ 2 then values.sum / (values.length : ℚ)
  else
    let sorted := ascSort values
    let trimmed := (sorted.take (sorted.length - 1)).drop 1
    trimmed.sum / (trimmed.length : ℚ)

/-- Model of `calculateCoefficientOfVariation` from reliability-run.ts line 284. -/
noncomputable def calculateCoefficientOfVariation (values : List ℚ) : ℝ :=
  if values.length ≤ 1 then 0
  else
    let mean := values.sum / (values.length : ℚ)
    if mean = 0 then 0
    else
      let variance := (values.map (fun value => (value - mean) ^ 2)).sum / (values.length : ℚ)
      Real.sqrt (variance : ℝ) / (mean : ℝ)

/-- Plain mean of a sample list. -/
def meanSpec (values : List ℚ) : ℚ := values.sum / (values.length : ℚ)

/-- The claim median: middle element of the ascending sort for odd length,
mean of the two middle elements for even length. -/
def medianSpec (values : List ℚ) : ℚ :=
  if values.length % 2 = 1 then (ascSort values).getD (values.length / 2) 0
  else
    ((ascSort values).getD (values.length / 2 - 1) 0 +
      (ascSort values).getD (values.length / 2) 0) / 2

/-- The claim trimmed mean: plain mean when `n ≤ 2`, otherwise the mean of the
ascending sort with exactly the first and last element removed. -/
def trimmedMeanSpec (values : List ℚ) : ℚ :=
  if values.length ≤ 2 then meanSpec values
  else
    (((ascSort values).drop 1).dropLast).sum /
      ((((ascSort values).drop 1).dropLast).length : ℚ)

/-- Population variance of a sample list. -/
def popVariance (values : List ℚ) : ℚ :=
  (values.map (fun value => (value - meanSpec values) ^ 2)).sum / (values.length : ℚ)

/-- Population standard deviation of a sample list. -/
noncomputable def popStddev (values : List ℚ) : ℝ :=
  Real.sqrt ((popVariance values : ℚ) : ℝ)

/-- The claim formula for the nearest-rank-with-ceiling convention:
the element at index `clamp(ceil(n * p) - 1, 0, n - 1)`. -/
def nearestRankCeilSpec (sorted : List ℚ) (p : ℚ) : ℚ :=
  sorted.getD
    (max 0 (min (⌈(sorted.length : ℚ) * p⌉ - 1) ((sorted.length : ℤ) - 1))).toNat 0

/-- The claim formula for the interpolating convention: linear interpolation
between the elements at `floor(rank)` and `ceil(rank)` of the ascending sort,
`rank = (p / 100) * (n - 1)`. -/
def linearInterpSpec (values : List ℚ) (p : ℚ) : ℚ :=
  (ascSort values).getD (⌊(p / 100) * (((ascSort values).length : ℚ) - 1)⌋).toNat 0 +
    ((ascSort values).getD (⌈(p / 100) * (((ascSort values).length : ℚ) - 1)⌉).toNat 0 -
        (ascSort values).getD (⌊(p / 100) * (((ascSort values).length : ℚ) - 1)⌋).toNat 0) *
      ((p / 100) * (((ascSort values).length : ℚ) - 1) -
        ((⌊(p / 100) * (((ascSort values).length : ℚ) - 1)⌋ : ℤ) : ℚ))

lemma jsIndex_eq_some (l : List ℚ) (i : ℤ) (h0 : 0 ≤ i) (hlt : i.toNat < l.length) :
    jsIndex l i = some (l.getD i.toNat 0) := by
  rw [jsIndex, dif_pos ⟨h0, hlt⟩, List.getD_eq_getElem l 0 hlt, List.get_eq_getElem]

lemma percentile_eq_nearestRankCeil (sorted : List ℚ) (p : ℚ) (hne : sorted ≠ []) :
    percentile sorted p = nearestRankCeilSpec sorted p := by
  have hn : 0 < sorted.length := List.length_pos.2 hne
  have hix : pIndex sorted.length p =
      max 0 (min (⌈(sorted.length : ℚ) * p⌉ - 1) ((sorted.length : ℤ) - 1)) := by
    unfold pIndex
    omega
  rw [percentile_eq_getD sorted hne p, nearestRankCeilSpec, hix]

lemma mnetPercentile_eq_linearInterp (values : List ℚ) (hne : values ≠ []) (p : ℚ)
    (h0 : 0 ≤ p) (h1 : p ≤ 100) :
    MnetMatrix.percentile values p = linearInterpSpec values p := by
  have hlen : ¬values.length = 0 := by simpa using hne
  have hslen : (ascSort values).length = values.length := List.length_insertionSort _ _
  have hspos : 0 < (ascSort values).length := by omega
  set s := ascSort values with hsdef
  set rank : ℚ := (p / 100) * ((s.length : ℚ) - 1) with hrank
  have hsub : (0 : ℚ) ≤ (s.length : ℚ) - 1 := by
    have : (1 : ℚ) ≤ (s.length : ℚ) := by exact_mod_cast hspos
    linarith
  have hrank0 : 0 ≤ rank := mul_nonneg (by positivity) hsub
  have hrankle : rank ≤ (s.length : ℚ) - 1 :=
    mul_le_of_le_one_left hsub ((div_le_one (by norm_num)).2 h1)
  have hfl0 : 0 ≤ ⌊rank⌋ := Int.floor_nonneg.2 hrank0
  have hceil : ⌈rank⌉ ≤ (s.length : ℤ) - 1 := by
    rw [Int.ceil_le]
    push_cast
    exact hrankle
  have hflle : ⌊rank⌋ ≤ ⌈rank⌉ := Int.floor_le_ceil rank
  have hflt : ⌊rank⌋.toNat < s.length := by omega
  have hclt : ⌈rank⌉.toNat < s.length := by omega
  rw [MnetMatrix.percentile, if_neg hlen]
  simp only [← hsdef, ← hrank]
  rw [linearInterpSpec]
  simp only [← hsdef, ← hrank]
  by_cases hfc : ⌊rank⌋ = ⌈rank⌉
  · rw [if_pos hfc, jsIndex_eq_some s _ hfl0 hflt, Option.getD_some, ← hfc]
    ring
  · rw [if_neg hfc, jsIndex_eq_some s _ hfl0 hflt, Option.getD_some,
      jsIndex_eq_some s _ (le_trans hfl0 hflle) hclt, Option.getD_some]

/-! ## JSON values (the `unknown` results of `JSON.parse`) -/

/-- A parsed JSON value.  `JSON.parse` can only produce null, booleans, finite
numbers, strings, arrays and objects, so this models the `unknown` inputs of
the baseline decoding helpers. -/
inductive Json where
  | null
  | bool (b : Bool)
  | num (q : ℚ)
  | str (s : String)
  | arr (items : List Json)
  | obj (fields : List (String × Json))

/-- Property access `value[key]` on a parsed JSON value: objects yield their
field (or nothing), everything else has no string-keyed fields. -/
def getField : Json → String → Option Json
  | .obj fields, key => fields.lookup key
  | _, _ => none

/-- Model of `isRecord` from part_007 line 305: the value has typeof object and
is not null; arrays are objects in JavaScript. -/
def isRecord : Json → Bool
  | .obj _ => true
  | .arr _ => true
  | _ => false

/-- Model of `isRecord` applied to a possibly-undefined field access. -/
def isRecordF : Option Json → Bool
  | some j => isRecord j
  | none => false

/-- Model of `isNumber` from part_007 line 308 on a possibly-undefined field: a finite
JavaScript number (every parsed JSON number is finite). -/
def isNumberF : Option Json → Bool
  | some (.num _) => true
  | _ => false

/-- Model of `isString` from part_007 line 309 on a possibly-undefined field. -/
def isStringF : Option Json → Bool
  | some (.str _) => true
  | _ => false

/-- Model of `Array.isArray(value)` combined with `value.every(p)`. -/
def isArrayAllF (p : Json → Bool) : Option Json → Bool
  | some (.arr items) => items.all p
  | _ => false

/-- Model of the `runtime.bunRevision` check: the field is null or a string. -/
def isNullOrStringF : Option Json → Bool
  | some .null => true
  | some (.str _) => true
  | _ => false

/-! ## Baseline comparison decoding (bench pack, part_007 lines 311-376, 687) -/

structure BaselineProfileMetric where
  name : String
  rounds : ℚ
  medianOpsPerSecond : ℚ
  trimmedMeanOpsPerSecond : ℚ
  minOpsPerSecond : ℚ
  maxOpsPerSecond : ℚ
  coefficientOfVariation : ℚ
deriving DecidableEq

/-- Model of `isBenchmarkSample` from part_007 line 311. -/
def isBenchmarkSample (value : Json) : Bool :=
  isRecord value &&
    (isStringF (getField value "name") &&
      (isNumberF (getField value "iterations") &&
        (isNumberF (getField value "durationMs") &&
          isNumberF (getField value "opsPerSecond"))))

/-- Model of `isBaselineReport` from part_007 line 323: the legacy single-sample
baseline shape. -/
def isBaselineReport (value : Json) : Bool :=
  isRecord value &&
    (isArrayAllF isBenchmarkSample (getField value "samples") &&
      (isRecordF (getField value "runtime") &&
        (isStringF (getField value "generatedAt") &&
          (isStringF ((getField value "runtime").bind (getField · "bunVersion")) &&
            (isStringF ((getField value "runtime").bind (getField · "platform")) &&
              isStringF ((getField value "runtime").bind (getField · "arch")))))))

/-- Model of `isBaselineProfileMetric` from part_007 line 341. -/
def isBaselineProfileMetric (value : Json) : Bool :=
  isRecord value &&
    (isStringF (getField value "name") &&
      (isNumberF (getField value "rounds") &&
        (isNumberF (getField value "medianOpsPerSecond") &&
          (isNumberF (getField value "trimmedMeanOpsPerSecond") &&
            (isNumberF (getField value "minOpsPerSecond") &&
              (isNumberF (getField value "maxOpsPerSecond") &&
                isNumberF (getField value "coefficientOfVariation")))))))

/-- Model of `isBaselineProfile` from part_007 line 356: the multi-round profile
shape. -/
def isBaselineProfile (value : Json) : Bool :=
  isRecord value &&
    (isRecordF (getField value "runtime") &&
      (isRecordF (getField value "options") &&
        (isArrayAllF isBaselineProfileMetric (getField value "metrics") &&
          (isStringF (getField value "generatedAt") &&
            (isStringF ((getField value "runtime").bind (getField · "bunVersion")) &&
              (isNullOrStringF
                  ((getField value "runtime").bind (getField · "bunRevision")) &&
                (isStringF ((getField value "runtime").bind (getField · "platform")) &&
                  (isStringF ((getField value "runtime").bind (getField · "arch")) &&
                    (isNumberF ((getField value "options").bind
                        (getField · "warmupRounds")) &&
                      (isNumberF ((getField value "options").bind
                          (getField · "rounds")) &&
                        isNumberF ((getField value "options").bind
                          (getField · "intervalMs"))))))))))))

/-- String field access with the empty string as default. -/
def strFieldD (value : Json) (key : String) : String :=
  match getField value key with
  | some (.str s) => s
  | _ => ""

/-- Numeric field access with 0 as default. -/
def numFieldD (value : Json) (key : String) : ℚ :=
  match getField value key with
  | some (.num q) => q
  | _ => 0

/-- The typed metric read off a JSON metric object (total, with defaults that
are never used on values passing `isBaselineProfileMetric`). -/
def asMetric (value : Json) : BaselineProfileMetric :=
  ⟨strFieldD value "name", numFieldD value "rounds",
    numFieldD value "medianOpsPerSecond", numFieldD value "trimmedMeanOpsPerSecond",
    numFieldD value "minOpsPerSecond", numFieldD value "maxOpsPerSecond",
    numFieldD value "coefficientOfVariation"⟩

/-- The `metrics` array of a profile value. -/
def profileMetricsList (value : Json) : List Json :=
  match getField value "metrics" with
  | some (.arr items) => items
  | _ => []

structure ComparisonSource where
  mode : String
  sourcePath : String
  values : List (String × BaselineProfileMetric)
deriving DecidableEq

/-- Model of `toProfileMetricMap` from part_007 line 684: the entry list
`metrics.map(m => [m.name, m])` fed to the `Map` constructor. -/
def toProfileMetricMap (value : Json) : List (String × BaselineProfileMetric) :=
  (profileMetricsList value).map fun m => ((asMetric m).name, asMetric m)

/-- Model of `decodeComparisonSource` from part_007 line 687. -/
def decodeComparisonSource (decoded : Json) (comparePath : String) :
    Except String ComparisonSource :=
  if isBaselineProfile decoded then
    .ok ⟨"profile", comparePath, toProfileMetricMap decoded⟩
  else if isBaselineReport decoded then
    .error ("legacy single-sample baseline is not supported: " ++ comparePath ++
      ". Use baseline profile generated by tooling bench pack.")
  else .error ("unsupported compare file format: " ++ comparePath)

/-! ## Throughput ranking (http-benchmark, part_003 line 134) -/

structure HttpBenchmarkTarget where
  name : String
  url : String
  method : String
deriving DecidableEq

structure HttpBenchmarkMetrics where
  requests : ℕ
  success : ℕ
  failures : ℕ
  errorRate : ℚ
  throughputRps : ℚ
  successThroughputRps : ℚ
  latency : LatencyStats
deriving DecidableEq

structure HttpBenchmarkResult where
  target : HttpBenchmarkTarget
  metrics : HttpBenchmarkMetrics
deriving DecidableEq

structure ThroughputRankingItem where
  rank : ℕ
  name : String
  successThroughputRps : ℚ
  throughputRps : ℚ
  errorRate : ℚ
  p95LatencyMs : ℚ
deriving DecidableEq

/-- Holds when `left` sorts at or before `right` under the comparator of
`buildThroughputRanking`: `successThroughputRps` descending, then `errorRate`
ascending, then `throughputRps` descending, then `p95` ascending. -/
def rankedBefore (l r : HttpBenchmarkResult) : Prop :=
  if l.metrics.successThroughputRps ≠ r.metrics.successThroughputRps then
    r.metrics.successThroughputRps < l.metrics.successThroughputRps
  else if l.metrics.errorRate ≠ r.metrics.errorRate then
    l.metrics.errorRate < r.metrics.errorRate
  else if l.metrics.throughputRps ≠ r.metrics.throughputRps then
    r.metrics.throughputRps < l.metrics.throughputRps
  else l.metrics.latency.p95 ≤ r.metrics.latency.p95

instance : DecidableRel rankedBefore := fun l r => by
  unfold rankedBefore
  infer_instance

/-- The four-component sort key of `buildThroughputRanking`, in lexicographic
order (negated components sort descending). -/
def rankKey (res : HttpBenchmarkResult) : ℚ ×ₗ ℚ ×ₗ ℚ ×ₗ ℚ :=
  toLex (-res.metrics.successThroughputRps,
    toLex (res.metrics.errorRate,
      toLex (-res.metrics.throughputRps, res.metrics.latency.p95)))

lemma rankedBefore_iff_key (l r : HttpBenchmarkResult) :
    rankedBefore l r ↔ rankKey l ≤ rankKey r := by
  unfold rankedBefore rankKey
  rw [Prod.Lex.le_iff, Prod.Lex.le_iff, Prod.Lex.le_iff]
  dsimp only
  split_ifs with h1 h2 h3
  · constructor
    · intro h
      exact Or.inl (by linarith)
    · rintro (h | ⟨he, _⟩)
      · linarith
      · exact absurd (by linarith : l.metrics.successThroughputRps =
          r.metrics.successThroughputRps) h1
  · rw [not_ne_iff] at h1
    constructor
    · intro h
      exact Or.inr ⟨by rw [h1], Or.inl h⟩
    · rintro (h | ⟨_, h | ⟨he, _⟩⟩)
      · exact absurd (by linarith : l.metrics.successThroughputRps =
          r.metrics.successThroughputRps) (by simpa [h1] using h.ne)
      · exact h
      · exact absurd he h2
  · rw [not_ne_iff] at h1 h2
    constructor
    · intro h
      exact Or.inr ⟨by rw [h1], Or.inr ⟨h2, Or.inl (by linarith)⟩⟩
    · rintro (h | ⟨_, h | ⟨_, h | ⟨he, _⟩⟩⟩)
      · simp [h1] at h
      · simp [h2] at h
      · linarith
      · exact absurd (by linarith : l.metrics.throughputRps =
          r.metrics.throughputRps) h3
  · rw [not_ne_iff] at h1 h2 h3
    constructor
    · intro h
      exact Or.inr ⟨by rw [h1], Or.inr ⟨h2, Or.inr ⟨by rw [h3], h⟩⟩⟩
    · rintro (h | ⟨_, h | ⟨_, h | ⟨_, h⟩⟩⟩)
      · simp [h1] at h
      · simp [h2] at h
      · simp [h3] at h
      · exact h

instance : IsTotal HttpBenchmarkResult rankedBefore :=
  ⟨fun a b => by
    rw [rankedBefore_iff_key, rankedBefore_iff_key]
    exact le_total _ _⟩

instance : IsTrans HttpBenchmarkResult rankedBefore :=
  ⟨fun a b c hab hbc =>
    (rankedBefore_iff_key a c).2
      (le_trans ((rankedBefore_iff_key a b).1 hab)
        ((rankedBefore_iff_key b c).1 hbc))⟩

/-- Model of `buildThroughputRanking` from http-benchmark (part_003 line 134): stable
sort by the comparator, then 1-based ranks. -/
def buildThroughputRanking (results : List HttpBenchmarkResult) :
    List ThroughputRankingItem :=
  ((List.insertionSort rankedBefore results).enum).map fun p =>
    ⟨p.1 + 1, p.2.target.name, p.2.metrics.successThroughputRps,
      p.2.metrics.throughputRps, p.2.metrics.errorRate, p.2.metrics.latency.p95⟩

/-! ## Single-request executor (http-benchmark, part_003 lines 195-249) -/

/-- The response object seen by `runSingleRequest`: status, the `ok` flag,
whether the `content-type` header indicates JSON, and the JSON parse of the
body (`none` models a parse failure). -/
structure ModelResponse where
  status : ℤ
  ok : Bool
  contentTypeJson : Bool
  parsedBody : Option Json

/-- The `{status, body}` snapshot handed to a success classifier. -/
structure ResponseSnapshot where
  status : ℤ
  body : Json

/-- A success classifier; `Except.error` models a thrown exception. -/
def SuccessClassifier : Type :=
  HttpBenchmarkTarget → ResponseSnapshot → Except String Bool

/-- Model of `parseResponseBody` from part_003 line 195: `null` unless the content type
indicates JSON, and `null` again when parsing fails; never throws. -/
def parseResponseBody (response : ModelResponse) : Json :=
  if response.contentTypeJson then response.parsedBody.getD Json.null
  else Json.null

/-- The `try` body of `runSingleRequest`: await the fetch (which may reject),
then classify.  A classifier exception is caught inside and mapped to
`ok := false`; the awaited fetch rejection propagates to the outer handler. -/
def runSingleRequestAttempt (target : HttpBenchmarkTarget)
    (fetched : Except String ModelResponse) (classify : Option SuccessClassifier)
    (elapsedAtResponse : ℚ) : Except String (Bool × ℚ) := do
  let response ← fetched
  match classify with
  | none => pure (response.ok, elapsedAtResponse)
  | some classifySuccess =>
    let body := parseResponseBody response
    let ok :=
      match classifySuccess target ⟨response.status, body⟩ with
      | .ok value => value
      | .error _ => false
    pure (ok, elapsedAtResponse)

/-- Model of `runSingleRequest` from part_003 line 207: the whole attempt runs inside
`try`/`catch`; any rejection yields `{ok: false, durationMs: elapsed}` instead
of propagating. -/
def runSingleRequest (target : HttpBenchmarkTarget)
    (fetched : Except String ModelResponse) (classify : Option SuccessClassifier)
    (elapsedAtResponse elapsedAtFailure : ℚ) : Bool × ℚ :=
  match runSingleRequestAttempt target fetched classify elapsedAtResponse with
  | .ok outcome => outcome
  | .error _ => (false, elapsedAtFailure)

/-! ## Concurrent dispatcher (http-benchmark, part_003 lines 251-354)

The dispatcher is modelled as a transition system over the cooperative
scheduling model of §5 of the spec: a worker can suspend only at the awaited
request execution, so the shared-counter read and increment of `runWorker`
(lines 269-271) happen in one non-suspending step (`draw`), and completing the
awaited `runSingleRequest` is a separate step (`complete`).  The ghost field
`drawn` records which request indices a worker has drawn. -/

/-- Model of `clampToNonNegative` from part_003 line 79. -/
def clampToNonNegative (value : ℚ) : ℚ := if value > 0 then value else 0

structure WorkerLocal where
  latencies : List ℚ
  successCount : ℕ
  failureCount : ℕ
  drawn : List ℕ
deriving DecidableEq

inductive WorkerStatus where
  | idle
  | pending (idx : ℕ)
  | done
deriving DecidableEq

/-- One logical worker: its control state and its local accumulation buffers
(each worker appends to its own buffers; merging happens only at the end). -/
abbrev Worker := WorkerStatus × WorkerLocal

structure DispatchState where
  nextRequest : ℕ
  workers : List Worker
deriving DecidableEq

def emptyWorkerLocal : WorkerLocal := ⟨[], 0, 0, []⟩

/-- The body of the worker loop after the awaited request resolves
(part_003 lines 279-284): push the clamped latency and bump one counter. -/
def recordOutcome (loc : WorkerLocal) (result : Bool × ℚ) : WorkerLocal :=
  ⟨loc.latencies ++ [clampToNonNegative result.2],
    loc.successCount + (if result.1 then 1 else 0),
    loc.failureCount + (if result.1 then 0 else 1),
    loc.drawn⟩

/-- Ghost bookkeeping: remember a drawn request index. -/
def drawIndex (loc : WorkerLocal) (i : ℕ) : WorkerLocal :=
  ⟨loc.latencies, loc.successCount, loc.failureCount, loc.drawn ++ [i]⟩

/-- One scheduler step of the worker pool.  `outcome` is the (injected,
per-index deterministic) result of `runSingleRequest`. -/
inductive DispatchStep (total : ℕ) (outcome : ℕ → Bool × ℚ) :
    DispatchState → DispatchState → Prop where
  | draw (c : ℕ) (pre post : List Worker) (loc : WorkerLocal) (h : c < total) :
      DispatchStep total outcome
        ⟨c, pre ++ (WorkerStatus.idle, loc) :: post⟩
        ⟨c + 1, pre ++ (WorkerStatus.pending c, drawIndex loc c) :: post⟩
  | exit (c : ℕ) (pre post : List Worker) (loc : WorkerLocal) (h : ¬c < total) :
      DispatchStep total outcome
        ⟨c, pre ++ (WorkerStatus.idle, loc) :: post⟩
        ⟨c, pre ++ (WorkerStatus.done, loc) :: post⟩
  | complete (c idx : ℕ) (pre post : List Worker) (loc : WorkerLocal) :
      DispatchStep total outcome
        ⟨c, pre ++ (WorkerStatus.pending idx, loc) :: post⟩
        ⟨c, pre ++ (WorkerStatus.idle, recordOutcome loc (outcome idx)) :: post⟩

/-- The initial pool: `concurrency` idle workers, shared counter 0
(part_003 lines 337-344). -/
def initDispatch (concurrency : ℕ) : DispatchState :=
  ⟨0, List.replicate concurrency (WorkerStatus.idle, emptyWorkerLocal)⟩

/-- The request index a worker is currently executing, as a list. -/
def pendingList : WorkerStatus → List ℕ
  | .pending idx => [idx]
  | _ => []

structure MergedResult where
  latenciesMs : List ℚ
  successCount : ℕ
  failureCount : ℕ
deriving DecidableEq

/-- Model of `mergeWorkerResults` from part_003 line 294: concatenate latencies and add
the counters. -/
def mergeWorkerResults (items : List WorkerLocal) : MergedResult :=
  items.foldl
    (fun acc item =>
      ⟨acc.latenciesMs ++ item.latencies, acc.successCount + item.successCount,
        acc.failureCount + item.failureCount⟩)
    ⟨[], 0, 0⟩

/-- The dispatcher invariant: the counter never exceeds the budget, the pool
size is fixed, the drawn indices across all workers are exactly
`0, …, nextRequest - 1` with no duplicates, every worker balances its buffers
against its draws, and once any worker has exited the budget is exhausted. -/
def DispatchInv (total concurrency : ℕ) (s : DispatchState) : Prop :=
  s.nextRequest ≤ total ∧
  s.workers.length = concurrency ∧
  ((s.workers.flatMap fun w => w.2.drawn : List ℕ) : Multiset ℕ) =
    Multiset.range s.nextRequest ∧
  (∀ w ∈ s.workers,
    w.2.latencies.length = w.2.successCount + w.2.failureCount ∧
    w.2.latencies.length + (pendingList w.1).length = w.2.drawn.length) ∧
  ((∃ w ∈ s.workers, w.1 = WorkerStatus.done) → s.nextRequest = total)

/-! ## Regression gate (bench pack, part_007 line 760) -/

inductive GateRule where
  | cv
  | medianRegression
  | missingComparison
deriving DecidableEq

structure BenchmarkGateInputMetric where
  name : String
  coefficientOfVariation : ℚ
  medianDeltaPct : Option ℚ
deriving DecidableEq

structure BenchmarkGatePolicy where
  maxCv : ℚ
  maxMedianRegressionPct : ℚ
  requireComparison : Bool
deriving DecidableEq

structure BenchmarkGateViolation where
  metric : String
  rule : GateRule
  actual : Option ℚ
  threshold : Option ℚ
  message : String
deriving DecidableEq

structure BenchmarkGateResult where
  passed : Bool
  compared : Bool
  policy : BenchmarkGatePolicy
  violations : List BenchmarkGateViolation
deriving DecidableEq

/-- The `cv` violation pushed for one metric. -/
def cvViolation (policy : BenchmarkGatePolicy) (metric : BenchmarkGateInputMetric) :
    BenchmarkGateViolation :=
  ⟨metric.name, GateRule.cv, some metric.coefficientOfVariation, some policy.maxCv,
    "coefficient of variation exceeds threshold"⟩

/-- The per-metric `missing-comparison` violation. -/
def missingMetricViolation (metric : BenchmarkGateInputMetric) :
    BenchmarkGateViolation :=
  ⟨metric.name, GateRule.missingComparison, none, none,
    "missing comparison metric in baseline profile"⟩

/-- The `median-regression` violation pushed for one metric. -/
def regressionViolation (policy : BenchmarkGatePolicy)
    (metric : BenchmarkGateInputMetric) (delta : ℚ) : BenchmarkGateViolation :=
  ⟨metric.name, GateRule.medianRegression, some delta,
    some (-policy.maxMedianRegressionPct), "median regression exceeds threshold"⟩

/-- The wildcard violation pushed when comparison is required but missing. -/
def wildcardViolation : BenchmarkGateViolation :=
  ⟨"*", GateRule.missingComparison, none, none,
    "comparison profile is required by gate policy"⟩

/-- The violations pushed by one iteration of the metric loop of
`evaluateBenchmarkGate`. -/
def metricGateViolations (compared : Bool) (policy : BenchmarkGatePolicy)
    (metric : BenchmarkGateInputMetric) : List BenchmarkGateViolation :=
  (if metric.coefficientOfVariation > policy.maxCv then [cvViolation policy metric]
   else []) ++
    (if compared = false then []
     else
       match metric.medianDeltaPct with
       | none => [missingMetricViolation metric]
       | some delta =>
         if delta < -policy.maxMedianRegressionPct then
           [regressionViolation policy metric delta]
         else [])

/-- Model of `evaluateBenchmarkGate` from the bench-pack command (part_007 line 760). -/
def evaluateBenchmarkGate (metrics : List BenchmarkGateInputMetric)
    (compared : Bool) (policy : BenchmarkGatePolicy) : BenchmarkGateResult :=
  let violations :=
    (if (!compared && policy.requireComparison) = true then [wildcardViolation]
     else []) ++
      metrics.flatMap (metricGateViolations compared policy)
  ⟨violations.isEmpty, compared, policy, violations⟩

/-! ## Theorems: cost/benefit gate (C8) -/

/-- C8: `evaluateWasmGate` clamps each timing to ≥ 0, computes
`serializationRatio = (marshalMs + unmarshalMs) / totalMs` (0 when `totalMs`
is 0), treats `throughputDeltaRatio > 0 ∨ p95DeltaRatio < 0 ∨
cpuTimeDeltaRatio < 0` as endpoint benefit, and sets `shouldDisable` exactly
when `serializationRatio > 0.4` and no endpoint benefit is observed; with
timings 40/10/40 and all benefit ratios 0 it disables, and the same timings
with `throughputDeltaRatio = 0.1` do not. -/
theorem evaluateWasmGate_spec (timing : WasmTiming) (benefit : WasmBenefit) :
    (evaluateWasmGate timing benefit).totalMs =
      clampToZero timing.marshalMs + clampToZero timing.computeMs +
        clampToZero timing.unmarshalMs ∧
    (evaluateWasmGate timing benefit).serializationRatio =
      (if (evaluateWasmGate timing benefit).totalMs = 0 then 0
       else (clampToZero timing.marshalMs + clampToZero timing.unmarshalMs) /
         (evaluateWasmGate timing benefit).totalMs) ∧
    (hasEndpointBenefit benefit = true ↔
      (benefit.throughputDeltaRatio > 0 ∨ benefit.p95DeltaRatio < 0 ∨
        benefit.cpuTimeDeltaRatio < 0)) ∧
    ((evaluateWasmGate timing benefit).shouldDisable = true ↔
      ((evaluateWasmGate timing benefit).serializationRatio > 0.4 ∧
        hasEndpointBenefit benefit = false)) ∧
    (evaluateWasmGate ⟨40, 10, 40⟩ ⟨0, 0, 0⟩).shouldDisable = true ∧
    (evaluateWasmGate ⟨40, 10, 40⟩ ⟨0.1, 0, 0⟩).shouldDisable = false := by
  refine ⟨rfl, rfl, ?_, ?_,
    by norm_num [evaluateWasmGate, clampToZero, hasEndpointBenefit],
    by norm_num [evaluateWasmGate, clampToZero, hasEndpointBenefit]⟩
  · simp [hasEndpointBenefit, decide_eq_true_eq, or_assoc]
  · simp only [evaluateWasmGate, Bool.and_eq_true, decide_eq_true_eq,
      Bool.not_eq_true', Bool.not_eq_false]

/-! ## Theorems: latency stats ordering (C3) -/

/-- C3: for every non-empty latency sample list the stats returned by
`computeLatencyStats` satisfy `min ≤ p50 ≤ p95 ≤ p99 ≤ max`; for the empty
list all six fields are 0. -/
theorem computeLatencyStats_spec (samples : List ℚ) (h : samples ≠ []) :
    (computeLatencyStats samples).min ≤ (computeLatencyStats samples).p50 ∧
    (computeLatencyStats samples).p50 ≤ (computeLatencyStats samples).p95 ∧
    (computeLatencyStats samples).p95 ≤ (computeLatencyStats samples).p99 ∧
    (computeLatencyStats samples).p99 ≤ (computeLatencyStats samples).max ∧
    computeLatencyStats ([] : List ℚ) = ⟨0, 0, 0, 0, 0, 0⟩ := by
  have hlen : ¬samples.length = 0 := by simpa using h
  have hsorted : (ascSort samples).Sorted (· ≤ ·) :=
    List.sorted_insertionSort _ _
  have hlens : (ascSort samples).length = samples.length :=
    List.length_insertionSort _ _
  have hne : ascSort samples ≠ [] := by
    intro hcontra
    rw [hcontra] at hlens
    exact hlen hlens.symm
  have hpos : 0 < (ascSort samples).length := List.length_pos.2 hne
  simp only [computeLatencyStats, if_neg hlen]
  refine ⟨?_, ?_, ?_, ?_, rfl⟩
  · rw [jsIndex_getD_of_range _ 0 le_rfl (by simpa using hpos)]
    exact getD_zero_le_percentile _ hsorted hne _
  · exact percentile_mono _ hsorted hne (by norm_num)
  · exact percentile_mono _ hsorted hne (by norm_num)
  · have htn : (((ascSort samples).length : ℤ) - 1).toNat =
        (ascSort samples).length - 1 := by omega
    rw [jsIndex_getD_of_range _ _ (by omega) (by omega), htn]
    exact percentile_le_getD_last _ hsorted hne _

/-- Witness for C3 at the concrete sample list `[3, 1, 2]`. -/
theorem computeLatencyStats_spec_witness :
    (computeLatencyStats [3, 1, 2]).min ≤ (computeLatencyStats [3, 1, 2]).p50 ∧
    (computeLatencyStats [3, 1, 2]).p50 ≤ (computeLatencyStats [3, 1, 2]).p95 ∧
    (computeLatencyStats [3, 1, 2]).p95 ≤ (computeLatencyStats [3, 1, 2]).p99 ∧
    (computeLatencyStats [3, 1, 2]).p99 ≤ (computeLatencyStats [3, 1, 2]).max ∧
    computeLatencyStats ([] : List ℚ) = ⟨0, 0, 0, 0, 0, 0⟩ :=
  computeLatencyStats_spec [3, 1, 2] (by simp)

/-! ## Round-aggregation statistics lemmas -/

lemma popVariance_singleton (a : ℚ) : popVariance [a] = 0 := by
  simp [popVariance, meanSpec]

lemma calculateStats_eq (values : List ℚ) (h : values ≠ []) :
    calculateStats values = Except.ok
      { rounds := values.length
        averageOpsPerSecond := meanSpec values
        medianOpsPerSecond := medianSpec values
        trimmedMeanOpsPerSecond := trimmedMeanSpec values
        minOpsPerSecond := (ascSort values).getD 0 0
        maxOpsPerSecond := (ascSort values).getD (values.length - 1) 0
        coefficientOfVariation :=
          if meanSpec values = 0 then 0
          else popStddev values / ((meanSpec values : ℚ) : ℝ) } := by
  have hlen0 : ¬values.length = 0 := by simpa using h
  have hperm : List.Perm (ascSort values) values := List.perm_insertionSort _ _
  have hlen : (ascSort values).length = values.length := List.length_insertionSort _ _
  have hsum : (ascSort values).sum = values.sum := hperm.sum_eq
  rw [calculateStats, if_neg hlen0]
  simp only [hlen, hsum]
  refine congrArg Except.ok ?_
  have hmean : values.sum / (values.length : ℚ) = meanSpec values := rfl
  refine BaselineStats.mk.injEq .. ▸ ?_
  refine ⟨rfl, rfl, ?_, ?_, rfl, rfl, ?_⟩
  · rw [medianSpec]
    by_cases hodd : values.length % 2 = 1
    · rw [if_pos hodd, if_pos hodd]
      have hix : (values.length - 1) / 2 = values.length / 2 := by omega
      rw [hix]
    · rw [if_neg hodd, if_neg hodd]
  · rw [trimmedMeanSpec]
    by_cases h2 : 2 < values.length
    · rw [if_pos h2, if_neg (by omega)]
      rw [List.drop_take, List.dropLast_eq_take, List.length_drop, hlen]
    · rw [if_neg h2, if_pos (by omega), hsum, meanSpec, hlen]
  · rw [popStddev, popVariance, meanSpec]
    rw [(hperm.map fun value => (value - values.sum / (values.length : ℚ)) ^ 2).sum_eq]

lemma calculateMedian_eq (values : List ℚ) (h : values ≠ []) :
    calculateMedian values = Except.ok (medianSpec values) := by
  have hlen0 : ¬values.length = 0 := by simpa using h
  have hlen : (ascSort values).length = values.length := List.length_insertionSort _ _
  rw [calculateMedian, if_neg hlen0]
  simp only [hlen]
  by_cases he : values.length % 2 = 0
  · rw [if_pos he, medianSpec, if_neg (by omega)]
  · rw [if_neg he, medianSpec, if_pos (by omega)]

lemma calculateTrimmedMean_eq (values : List ℚ) :
    calculateTrimmedMean values = trimmedMeanSpec values := by
  have hlen : (ascSort values).length = values.length := List.length_insertionSort _ _
  rw [calculateTrimmedMean, trimmedMeanSpec]
  by_cases h2 : values.length ≤ 2
  · rw [if_pos h2, if_pos h2, meanSpec]
  · rw [if_neg h2, if_neg h2]
    simp only [hlen]
    rw [List.drop_take, List.dropLast_eq_take, List.length_drop, hlen]

lemma calculateCoefficientOfVariation_eq (values : List ℚ) (h : values ≠ []) :
    calculateCoefficientOfVariation values =
      (if meanSpec values = 0 then (0 : ℝ)
       else popStddev values / ((meanSpec values : ℚ) : ℝ)) := by
  rcases le_or_lt values.length 1 with h1 | h1
  · rw [calculateCoefficientOfVariation, if_pos h1]
    have : values.length = 1 := by
      have := List.length_pos.2 h
      omega
    obtain ⟨a, rfl⟩ := List.length_eq_one.1 this
    by_cases hm : meanSpec [a] = 0
    · rw [if_pos hm]
    · rw [if_neg hm, popStddev, popVariance_singleton]
      simp
  · rw [calculateCoefficientOfVariation, if_neg (by omega)]
    by_cases hm : meanSpec values = 0
    · rw [if_pos hm, if_pos (show values.sum / (values.length : ℚ) = 0 from hm)]
    · rw [if_neg hm, if_neg (show ¬values.sum / (values.length : ℚ) = 0 from hm),
        popStddev, popVariance, meanSpec]

/-! ## Theorems: round-aggregation statistics (C2) -/

/-- C2: for every non-empty sample list, `calculateStats` succeeds and its
median follows the standard odd/even rule, its trimmed mean is the plain mean
for `n ≤ 2` and otherwise drops exactly the smallest and largest sample, and
its coefficient of variation is the population standard deviation divided by
the mean (0 when `n ≤ 1` or the mean is 0); the reliability-run helpers
`calculateMedian`, `calculateTrimmedMean` and `calculateCoefficientOfVariation`
compute the same statistics. -/
theorem roundAggregation_stats_spec (values : List ℚ) (h : values ≠ []) :
    ∃ stats, calculateStats values = Except.ok stats ∧
      stats.medianOpsPerSecond = medianSpec values ∧
      stats.trimmedMeanOpsPerSecond = trimmedMeanSpec values ∧
      stats.coefficientOfVariation = popStddev values / ((meanSpec values : ℚ) : ℝ) ∧
      ((values.length ≤ 1 ∨ meanSpec values = 0) →
        stats.coefficientOfVariation = 0) ∧
      calculateMedian values = Except.ok (medianSpec values) ∧
      calculateTrimmedMean values = trimmedMeanSpec values ∧
      calculateCoefficientOfVariation values = stats.coefficientOfVariation := by
  refine ⟨_, calculateStats_eq values h, rfl, rfl, ?_, ?_,
    calculateMedian_eq values h, calculateTrimmedMean_eq values, ?_⟩
  · by_cases hm : meanSpec values = 0
    · rw [if_pos hm, hm]
      simp
    · rw [if_neg hm]
  · intro hcase
    rcases hcase with h1 | hm
    · by_cases hm : meanSpec values = 0
      · rw [if_pos hm]
      · rw [if_neg hm]
        have : values.length = 1 := by
          have := List.length_pos.2 h
          omega
        obtain ⟨a, rfl⟩ := List.length_eq_one.1 this
        rw [popStddev, popVariance_singleton]
        simp
    · rw [if_pos hm]
  · exact calculateCoefficientOfVariation_eq values h

/-- Witness for C2 at the concrete sample list `[1, 2, 3]`. -/
theorem roundAggregation_stats_spec_witness :
    ∃ stats, calculateStats [1, 2, 3] = Except.ok stats ∧
      stats.medianOpsPerSecond = medianSpec [1, 2, 3] ∧
      stats.trimmedMeanOpsPerSecond = trimmedMeanSpec [1, 2, 3] ∧
      stats.coefficientOfVariation =
        popStddev [1, 2, 3] / ((meanSpec [1, 2, 3] : ℚ) : ℝ) ∧
      ((([1, 2, 3] : List ℚ).length ≤ 1 ∨ meanSpec [1, 2, 3] = 0) →
        stats.coefficientOfVariation = 0) ∧
      calculateMedian [1, 2, 3] = Except.ok (medianSpec [1, 2, 3]) ∧
      calculateTrimmedMean [1, 2, 3] = trimmedMeanSpec [1, 2, 3] ∧
      calculateCoefficientOfVariation [1, 2, 3] = stats.coefficientOfVariation :=
  roundAggregation_stats_spec [1, 2, 3] (by simp)

/-! ## Theorems: empty-input behaviour of the aggregators (C10) -/

/-- C10: `calculateStats` and `calculateMedian` reject empty input with their
respective errors, while `computeLatencyStats` returns all-zero statistics for
the empty list. -/
theorem emptyInput_behaviour_spec :
    calculateStats ([] : List ℚ) = Except.error "cannot summarize empty values" ∧
    calculateMedian ([] : List ℚ) =
      Except.error "cannot compute median of empty values" ∧
    computeLatencyStats ([] : List ℚ) = ⟨0, 0, 0, 0, 0, 0⟩ :=
  ⟨rfl, rfl, rfl⟩

/-! ## Theorems: the two percentile conventions (C4) -/

/-- C4: the http-benchmark `percentile` helper is nearest-rank-with-ceiling
(element at `clamp(ceil(n * p) - 1, 0, n - 1)`), the matrix-runner
`percentile` helper is linear interpolation between the elements at
`floor(rank)` and `ceil(rank)` with `rank = (p / 100) * (n - 1)`, and the two
conventions disagree on a concrete input (`[0, 10]` at the median: `0`
versus `5`). -/
theorem percentile_conventions_spec :
    (∀ (sorted : List ℚ) (p : ℚ), sorted ≠ [] → sorted.Sorted (· ≤ ·) →
      percentile sorted p = nearestRankCeilSpec sorted p) ∧
    (∀ (values : List ℚ) (p : ℚ), values ≠ [] → 0 ≤ p → p ≤ 100 →
      MnetMatrix.percentile values p = linearInterpSpec values p) ∧
    percentile [0, 10] (1 / 2) = 0 ∧
    MnetMatrix.percentile [0, 10] (100 * (1 / 2)) = 5 := by
  refine ⟨fun sorted p hne _ => percentile_eq_nearestRankCeil sorted p hne,
    fun values p hne h0 h1 => mnetPercentile_eq_linearInterp values hne p h0 h1,
    ?_, ?_⟩
  · have hc : (⌈(2 : ℚ) * (1 / 2)⌉ : ℤ) = 1 := by norm_num [Int.ceil_eq_iff]
    norm_num [percentile, jsIndex, hc]
  · have h := mnetPercentile_eq_linearInterp [0, 10] (by simp) (100 * (1 / 2))
      (by norm_num) (by norm_num)
    rw [h]
    have hs : ascSort [0, 10] = [0, 10] := by decide
    have hc : (⌈(1 : ℚ) / 2⌉ : ℤ) = 1 := by norm_num [Int.ceil_eq_iff]
    rw [linearInterpSpec, hs]
    norm_num [hc]

/-- Witness for C4: both conventions instantiated at the concrete sorted list
`[0, 10]` and the median rank. -/
theorem percentile_conventions_spec_witness :
    percentile [0, 10] (1 / 2) = nearestRankCeilSpec [0, 10] (1 / 2) ∧
    MnetMatrix.percentile [0, 10] 50 = linearInterpSpec [0, 10] 50 :=
  ⟨percentile_conventions_spec.1 [0, 10] (1 / 2) (by simp)
      (by norm_num [List.sorted_cons]),
    percentile_conventions_spec.2.1 [0, 10] 50 (by simp) (by norm_num)
      (by norm_num)⟩

/-! ## Regression gate lemmas -/

lemma mem_metricGateViolations {compared : Bool} {policy : BenchmarkGatePolicy}
    {m : BenchmarkGateInputMetric} {v : BenchmarkGateViolation} :
    v ∈ metricGateViolations compared policy m ↔
      (m.coefficientOfVariation > policy.maxCv ∧ v = cvViolation policy m) ∨
      (compared = true ∧ m.medianDeltaPct = none ∧
        v = missingMetricViolation m) ∨
      (compared = true ∧ ∃ delta, m.medianDeltaPct = some delta ∧
        delta < -policy.maxMedianRegressionPct ∧
        v = regressionViolation policy m delta) := by
  unfold metricGateViolations
  cases compared with
  | false =>
    rcases hd : m.medianDeltaPct with _ | delta <;>
      split_ifs with hcv <;> simp_all
  | true =>
    rcases hd : m.medianDeltaPct with _ | delta
    · split_ifs with hcv <;> simp_all
    · split_ifs with hcv hreg hreg <;> simp_all

lemma gate_violations_eq (metrics : List BenchmarkGateInputMetric)
    (compared : Bool) (policy : BenchmarkGatePolicy) :
    (evaluateBenchmarkGate metrics compared policy).violations =
      (if (!compared && policy.requireComparison) = true then [wildcardViolation]
       else []) ++ metrics.flatMap (metricGateViolations compared policy) := rfl

lemma mem_gate_violations {metrics : List BenchmarkGateInputMetric}
    {compared : Bool} {policy : BenchmarkGatePolicy} {v : BenchmarkGateViolation} :
    v ∈ (evaluateBenchmarkGate metrics compared policy).violations ↔
      ((compared = false ∧ policy.requireComparison = true ∧
          v = wildcardViolation) ∨
        ∃ m ∈ metrics, v ∈ metricGateViolations compared policy m) := by
  rw [gate_violations_eq, List.mem_append, List.mem_flatMap]
  cases compared <;> cases hreq : policy.requireComparison <;> simp [hreq]

lemma rule_of_mem_metricGateViolations_not_compared {policy : BenchmarkGatePolicy}
    {m : BenchmarkGateInputMetric} {v : BenchmarkGateViolation}
    (hv : v ∈ metricGateViolations false policy m) : v.rule = GateRule.cv := by
  rcases mem_metricGateViolations.1 hv with ⟨_, rfl⟩ | ⟨hc, _⟩ | ⟨hc, _⟩
  · rfl
  · exact absurd hc (by simp)
  · exact absurd hc (by simp)

/-! ## Theorems: regression gate (C1) -/

/-- C1: `evaluateBenchmarkGate` emits a `cv` violation for every metric whose
CV exceeds `policy.maxCv`; when not compared and comparison is required it
emits the wildcard `missing-comparison` violation and exactly one
`missing-comparison` violation in total; when compared it emits
`missing-comparison` for every metric with a null delta and
`median-regression` (threshold `-maxMedianRegressionPct`) for every metric
whose delta is below `-maxMedianRegressionPct`; every emitted violation is of
one of these forms (so a delta at or above the limit never yields a
median-regression violation), and `passed` holds exactly when the violation
list is empty. -/
theorem evaluateBenchmarkGate_spec (metrics : List BenchmarkGateInputMetric)
    (compared : Bool) (policy : BenchmarkGatePolicy) :
    (∀ m ∈ metrics, m.coefficientOfVariation > policy.maxCv →
      cvViolation policy m ∈
        (evaluateBenchmarkGate metrics compared policy).violations) ∧
    (compared = false → policy.requireComparison = true →
      wildcardViolation ∈
          (evaluateBenchmarkGate metrics compared policy).violations ∧
        (evaluateBenchmarkGate metrics compared policy).violations.countP
          (fun v => decide (v.rule = GateRule.missingComparison)) = 1) ∧
    (compared = true → ∀ m ∈ metrics,
      (m.medianDeltaPct = none → missingMetricViolation m ∈
        (evaluateBenchmarkGate metrics compared policy).violations) ∧
      (∀ delta, m.medianDeltaPct = some delta →
        delta < -policy.maxMedianRegressionPct →
        regressionViolation policy m delta ∈
          (evaluateBenchmarkGate metrics compared policy).violations)) ∧
    (∀ v ∈ (evaluateBenchmarkGate metrics compared policy).violations,
      (compared = false ∧ policy.requireComparison = true ∧
        v = wildcardViolation) ∨
      (∃ m ∈ metrics, m.coefficientOfVariation > policy.maxCv ∧
        v = cvViolation policy m) ∨
      (compared = true ∧ ∃ m ∈ metrics, m.medianDeltaPct = none ∧
        v = missingMetricViolation m) ∨
      (compared = true ∧ ∃ m ∈ metrics, ∃ delta,
        m.medianDeltaPct = some delta ∧
        delta < -policy.maxMedianRegressionPct ∧
        v = regressionViolation policy m delta)) ∧
    (∀ v ∈ (evaluateBenchmarkGate metrics compared policy).violations,
      v.rule = GateRule.medianRegression →
      ∃ delta, v.actual = some delta ∧
        delta < -policy.maxMedianRegressionPct ∧
        v.threshold = some (-policy.maxMedianRegressionPct)) ∧
    ((evaluateBenchmarkGate metrics compared policy).passed = true ↔
      (evaluateBenchmarkGate metrics compared policy).violations = []) := by
  refine ⟨?_, ?_, ?_, ?_, ?_, ?_⟩
  · intro m hm hcv
    exact mem_gate_violations.2
      (Or.inr ⟨m, hm, mem_metricGateViolations.2 (Or.inl ⟨hcv, rfl⟩)⟩)
  · rintro rfl hreq
    constructor
    · exact mem_gate_violations.2 (Or.inl ⟨rfl, hreq, rfl⟩)
    · rw [gate_violations_eq]
      rw [if_pos (by rw [hreq]; rfl)]
      rw [List.singleton_append, List.countP_cons]
      have hz : (metrics.flatMap (metricGateViolations false policy)).countP
          (fun v => decide (v.rule = GateRule.missingComparison)) = 0 := by
        rw [List.countP_eq_zero]
        intro v hv
        rcases List.mem_flatMap.1 hv with ⟨m, _, hvm⟩
        have := rule_of_mem_metricGateViolations_not_compared hvm
        simp [this]
      rw [hz]
      simp [wildcardViolation]
  · rintro rfl m hm
    refine ⟨fun hnone => ?_, fun delta hdelta hreg => ?_⟩
    · exact mem_gate_violations.2
        (Or.inr ⟨m, hm, mem_metricGateViolations.2 (Or.inr (Or.inl ⟨rfl, hnone, rfl⟩))⟩)
    · exact mem_gate_violations.2
        (Or.inr ⟨m, hm,
          mem_metricGateViolations.2 (Or.inr (Or.inr ⟨rfl, delta, hdelta, hreg, rfl⟩))⟩)
  · intro v hv
    rcases mem_gate_violations.1 hv with hwild | ⟨m, hm, hvm⟩
    · exact Or.inl hwild
    · rcases mem_metricGateViolations.1 hvm with ⟨hcv, rfl⟩ | ⟨hc, hnone, rfl⟩ |
        ⟨hc, delta, hdelta, hreg, rfl⟩
      · exact Or.inr (Or.inl ⟨m, hm, hcv, rfl⟩)
      · exact Or.inr (Or.inr (Or.inl ⟨hc, m, hm, hnone, rfl⟩))
      · exact Or.inr (Or.inr (Or.inr ⟨hc, m, hm, delta, hdelta, hreg, rfl⟩))
  · intro v hv hrule
    rcases mem_gate_violations.1 hv with ⟨_, _, rfl⟩ | ⟨m, hm, hvm⟩
    · exact absurd hrule (by simp [wildcardViolation])
    · rcases mem_metricGateViolations.1 hvm with ⟨hcv, rfl⟩ | ⟨hc, hnone, rfl⟩ |
        ⟨hc, delta, hdelta, hreg, rfl⟩
      · exact absurd hrule (by simp [cvViolation])
      · exact absurd hrule (by simp [missingMetricViolation])
      · exact ⟨delta, rfl, hreg, rfl⟩
  · exact List.isEmpty_iff

/-- Witness for C1 at a concrete metric list exercising the compared case. -/
theorem evaluateBenchmarkGate_spec_witness :
    (∀ m ∈ [BenchmarkGateInputMetric.mk "cpu" (1 : ℚ) (some (-30)),
        BenchmarkGateInputMetric.mk "io" (0 : ℚ) none],
      m.coefficientOfVariation > (BenchmarkGatePolicy.mk 0.35 20 true).maxCv →
      cvViolation (BenchmarkGatePolicy.mk 0.35 20 true) m ∈
        (evaluateBenchmarkGate
          [BenchmarkGateInputMetric.mk "cpu" (1 : ℚ) (some (-30)),
            BenchmarkGateInputMetric.mk "io" (0 : ℚ) none]
          true (BenchmarkGatePolicy.mk 0.35 20 true)).violations) ∧
    (true = false → (BenchmarkGatePolicy.mk 0.35 20 true).requireComparison = true →
      wildcardViolation ∈
          (evaluateBenchmarkGate
            [BenchmarkGateInputMetric.mk "cpu" (1 : ℚ) (some (-30)),
              BenchmarkGateInputMetric.mk "io" (0 : ℚ) none]
            true (BenchmarkGatePolicy.mk 0.35 20 true)).violations ∧
        (evaluateBenchmarkGate
          [BenchmarkGateInputMetric.mk "cpu" (1 : ℚ) (some (-30)),
            BenchmarkGateInputMetric.mk "io" (0 : ℚ) none]
          true (BenchmarkGatePolicy.mk 0.35 20 true)).violations.countP
          (fun v => decide (v.rule = GateRule.missingComparison)) = 1) ∧
    (true = true → ∀ m ∈ [BenchmarkGateInputMetric.mk "cpu" (1 : ℚ) (some (-30)),
        BenchmarkGateInputMetric.mk "io" (0 : ℚ) none],
      (m.medianDeltaPct = none → missingMetricViolation m ∈
        (evaluateBenchmarkGate
          [BenchmarkGateInputMetric.mk "cpu" (1 : ℚ) (some (-30)),
            BenchmarkGateInputMetric.mk "io" (0 : ℚ) none]
          true (BenchmarkGatePolicy.mk 0.35 20 true)).violations) ∧
      (∀ delta, m.medianDeltaPct = some delta →
        delta < -(BenchmarkGatePolicy.mk 0.35 20 true).maxMedianRegressionPct →
        regressionViolation (BenchmarkGatePolicy.mk 0.35 20 true) m delta ∈
          (evaluateBenchmarkGate
            [BenchmarkGateInputMetric.mk "cpu" (1 : ℚ) (some (-30)),
              BenchmarkGateInputMetric.mk "io" (0 : ℚ) none]
            true (BenchmarkGatePolicy.mk 0.35 20 true)).violations)) ∧
    (∀ v ∈ (evaluateBenchmarkGate
        [BenchmarkGateInputMetric.mk "cpu" (1 : ℚ) (some (-30)),
          BenchmarkGateInputMetric.mk "io" (0 : ℚ) none]
        true (BenchmarkGatePolicy.mk 0.35 20 true)).violations,
      (true = false ∧ (BenchmarkGatePolicy.mk 0.35 20 true).requireComparison = true ∧
        v = wildcardViolation) ∨
      (∃ m ∈ [BenchmarkGateInputMetric.mk "cpu" (1 : ℚ) (some (-30)),
          BenchmarkGateInputMetric.mk "io" (0 : ℚ) none],
        m.coefficientOfVariation > (BenchmarkGatePolicy.mk 0.35 20 true).maxCv ∧
        v = cvViolation (BenchmarkGatePolicy.mk 0.35 20 true) m) ∨
      (true = true ∧ ∃ m ∈ [BenchmarkGateInputMetric.mk "cpu" (1 : ℚ) (some (-30)),
          BenchmarkGateInputMetric.mk "io" (0 : ℚ) none],
        m.medianDeltaPct = none ∧ v = missingMetricViolation m) ∨
      (true = true ∧ ∃ m ∈ [BenchmarkGateInputMetric.mk "cpu" (1 : ℚ) (some (-30)),
          BenchmarkGateInputMetric.mk "io" (0 : ℚ) none], ∃ delta,
        m.medianDeltaPct = some delta ∧
        delta < -(BenchmarkGatePolicy.mk 0.35 20 true).maxMedianRegressionPct ∧
        v = regressionViolation (BenchmarkGatePolicy.mk 0.35 20 true) m delta)) ∧
    (∀ v ∈ (evaluateBenchmarkGate
        [BenchmarkGateInputMetric.mk "cpu" (1 : ℚ) (some (-30)),
          BenchmarkGateInputMetric.mk "io" (0 : ℚ) none]
        true (BenchmarkGatePolicy.mk 0.35 20 true)).violations,
      v.rule = GateRule.medianRegression →
      ∃ delta, v.actual = some delta ∧
        delta < -(BenchmarkGatePolicy.mk 0.35 20 true).maxMedianRegressionPct ∧
        v.threshold = some (-(BenchmarkGatePolicy.mk 0.35 20 true).maxMedianRegressionPct)) ∧
    ((evaluateBenchmarkGate
        [BenchmarkGateInputMetric.mk "cpu" (1 : ℚ) (some (-30)),
          BenchmarkGateInputMetric.mk "io" (0 : ℚ) none]
        true (BenchmarkGatePolicy.mk 0.35 20 true)).passed = true ↔
      (evaluateBenchmarkGate
        [BenchmarkGateInputMetric.mk "cpu" (1 : ℚ) (some (-30)),
          BenchmarkGateInputMetric.mk "io" (0 : ℚ) none]
        true (BenchmarkGatePolicy.mk 0.35 20 true)).violations = []) :=
  evaluateBenchmarkGate_spec
    [BenchmarkGateInputMetric.mk "cpu" (1 : ℚ) (some (-30)),
      BenchmarkGateInputMetric.mk "io" (0 : ℚ) none]
    true (BenchmarkGatePolicy.mk 0.35 20 true)

/-! ## Throughput ranking lemmas -/

lemma eq_of_perm_of_sorted_of_antisymmOn {α : Type} {R : α → α → Prop} :
    ∀ {l₁ l₂ : List α}, List.Perm l₁ l₂ → List.Sorted R l₁ → List.Sorted R l₂ →
      (∀ a ∈ l₁, ∀ b ∈ l₁, R a b → R b a → a = b) → l₁ = l₂
  | [], l₂, hp, _, _, _ => hp.nil_eq
  | a :: t₁, [], hp, _, _, _ => absurd hp.symm.nil_eq (by simp)
  | a :: t₁, b :: t₂, hp, hs₁, hs₂, hanti => by
    have hbmem : b ∈ a :: t₁ := hp.symm.subset (List.mem_cons_self b t₂)
    have hamem : a ∈ b :: t₂ := hp.subset (List.mem_cons_self a t₁)
    have hab : a = b := by
      rcases List.mem_cons.1 hbmem with hba | hbt
      · exact hba.symm
      rcases List.mem_cons.1 hamem with hab | hat
      · exact hab
      exact hanti a (List.mem_cons_self a t₁) b hbmem
        (List.rel_of_sorted_cons hs₁ b hbt) (List.rel_of_sorted_cons hs₂ a hat)
    subst hab
    have htails : t₁ = t₂ :=
      eq_of_perm_of_sorted_of_antisymmOn hp.cons_inv hs₁.of_cons hs₂.of_cons
        (fun x hx y hy => hanti x (List.mem_cons_of_mem a hx) y
          (List.mem_cons_of_mem a hy))
    rw [htails]

lemma key_eq_of_rankedBefore_both {a b : HttpBenchmarkResult}
    (hab : rankedBefore a b) (hba : rankedBefore b a) : rankKey a = rankKey b :=
  le_antisymm ((rankedBefore_iff_key a b).1 hab) ((rankedBefore_iff_key b a).1 hba)

/-! ## Theorems: throughput ranking (C6, corrected) -/

/-- An all-zero metrics record used by the C6 counterexample. -/
def zeroMetrics : HttpBenchmarkMetrics :=
  ⟨0, 0, 0, 0, 0, 0, ⟨0, 0, 0, 0, 0, 0⟩⟩

/-- First counterexample result: name `alpha`, all-zero metrics. -/
def resultAlpha : HttpBenchmarkResult :=
  ⟨⟨"alpha", "http://a", "GET"⟩, zeroMetrics⟩

/-- Second counterexample result: name `beta`, identical all-zero metrics. -/
def resultBeta : HttpBenchmarkResult :=
  ⟨⟨"beta", "http://b", "GET"⟩, zeroMetrics⟩

/-- C6 counterexample: `[resultAlpha, resultBeta]` and `[resultBeta,
resultAlpha]` are permutations of each other, yet the stable sort keeps the
input order of the fully tied results, so `alpha` is ranked 1 in the first
list and `beta` is ranked 1 in the second: the rank assignment depends on the
input order. -/
theorem buildThroughputRanking_perm_counterexample :
    List.Perm [resultAlpha, resultBeta] [resultBeta, resultAlpha] ∧
    buildThroughputRanking [resultAlpha, resultBeta] =
      [⟨1, "alpha", 0, 0, 0, 0⟩, ⟨2, "beta", 0, 0, 0, 0⟩] ∧
    buildThroughputRanking [resultBeta, resultAlpha] =
      [⟨1, "beta", 0, 0, 0, 0⟩, ⟨2, "alpha", 0, 0, 0, 0⟩] ∧
    decide (buildThroughputRanking [resultAlpha, resultBeta] =
      buildThroughputRanking [resultBeta, resultAlpha]) = false :=
  ⟨List.Perm.swap resultBeta resultAlpha [], by decide, by decide, by decide⟩

/-- C6 (amended): `buildThroughputRanking` sorts by the four-tier comparator
and assigns 1-based ranks; and for any two input lists that are permutations
of each other, PROVIDED no two distinct results are tied on all four sort
keys, the resulting ranking (hence the rank assignment) is identical. -/
theorem buildThroughputRanking_spec (l₁ l₂ : List HttpBenchmarkResult)
    (hperm : List.Perm l₁ l₂)
    (hkeys : ∀ a ∈ l₁, ∀ b ∈ l₁, rankKey a = rankKey b → a = b) :
    List.Sorted rankedBefore (List.insertionSort rankedBefore l₁) ∧
    List.Perm (List.insertionSort rankedBefore l₁) l₁ ∧
    (∀ (i : ℕ) (h : i < (buildThroughputRanking l₁).length),
      ((buildThroughputRanking l₁).get ⟨i, h⟩).rank = i + 1) ∧
    buildThroughputRanking l₁ = buildThroughputRanking l₂ := by
  refine ⟨List.sorted_insertionSort rankedBefore l₁,
    List.perm_insertionSort rankedBefore l₁, ?_, ?_⟩
  · intro i h
    simp only [buildThroughputRanking] at h ⊢
    simp only [List.get_eq_getElem, List.getElem_map, List.getElem_enum]
  · have hsorted : List.insertionSort rankedBefore l₁ =
        List.insertionSort rankedBefore l₂ := by
      refine eq_of_perm_of_sorted_of_antisymmOn
        (((List.perm_insertionSort rankedBefore l₁).trans hperm).trans
          (List.perm_insertionSort rankedBefore l₂).symm)
        (List.sorted_insertionSort rankedBefore l₁)
        (List.sorted_insertionSort rankedBefore l₂) ?_
      intro a ha b hb hab hba
      exact hkeys a ((List.mem_insertionSort rankedBefore).1 ha)
        b ((List.mem_insertionSort rankedBefore).1 hb)
        (key_eq_of_rankedBefore_both hab hba)
    rw [buildThroughputRanking, buildThroughputRanking, hsorted]

/-- Witness for C6 at two concrete two-element lists with distinct keys. -/
theorem buildThroughputRanking_spec_witness :
    List.Sorted rankedBefore (List.insertionSort rankedBefore
      [resultAlpha, ⟨⟨"gamma", "http://g", "GET"⟩,
        ⟨1, 1, 0, 0, 1, 1, ⟨0, 0, 0, 0, 0, 0⟩⟩⟩]) ∧
    List.Perm (List.insertionSort rankedBefore
      [resultAlpha, ⟨⟨"gamma", "http://g", "GET"⟩,
        ⟨1, 1, 0, 0, 1, 1, ⟨0, 0, 0, 0, 0, 0⟩⟩⟩])
      [resultAlpha, ⟨⟨"gamma", "http://g", "GET"⟩,
        ⟨1, 1, 0, 0, 1, 1, ⟨0, 0, 0, 0, 0, 0⟩⟩⟩] ∧
    (∀ (i : ℕ) (h : i < (buildThroughputRanking
        [resultAlpha, ⟨⟨"gamma", "http://g", "GET"⟩,
          ⟨1, 1, 0, 0, 1, 1, ⟨0, 0, 0, 0, 0, 0⟩⟩⟩]).length),
      ((buildThroughputRanking
        [resultAlpha, ⟨⟨"gamma", "http://g", "GET"⟩,
          ⟨1, 1, 0, 0, 1, 1, ⟨0, 0, 0, 0, 0, 0⟩⟩⟩]).get ⟨i, h⟩).rank = i + 1) ∧
    buildThroughputRanking
        [resultAlpha, ⟨⟨"gamma", "http://g", "GET"⟩,
          ⟨1, 1, 0, 0, 1, 1, ⟨0, 0, 0, 0, 0, 0⟩⟩⟩] =
      buildThroughputRanking
        [⟨⟨"gamma", "http://g", "GET"⟩,
          ⟨1, 1, 0, 0, 1, 1, ⟨0, 0, 0, 0, 0, 0⟩⟩⟩, resultAlpha] :=
  buildThroughputRanking_spec
    [resultAlpha, ⟨⟨"gamma", "http://g", "GET"⟩,
      ⟨1, 1, 0, 0, 1, 1, ⟨0, 0, 0, 0, 0, 0⟩⟩⟩]
    [⟨⟨"gamma", "http://g", "GET"⟩,
      ⟨1, 1, 0, 0, 1, 1, ⟨0, 0, 0, 0, 0, 0⟩⟩⟩, resultAlpha]
    (List.Perm.swap _ _ [])
    (by decide)

/-! ## Theorems: comparison-source decoding (C7, corrected) -/

/-- A pure legacy single-sample baseline object (samples array, no profile
fields). -/
def legacyBaselineJson : Json :=
  .obj [("generatedAt", .str "2024-01-01T00:00:00Z"),
    ("runtime", .obj [("bunVersion", .str "1.0.0"),
      ("platform", .str "linux"), ("arch", .str "x64")]),
    ("samples", .arr [.obj [("name", .str "json-encode"),
      ("iterations", .num 100), ("durationMs", .num 5),
      ("opsPerSecond", .num 20000)]])]

/-- A hybrid object that matches the legacy single-sample shape (it has a
well-formed `samples` array) while also matching the profile shape. -/
def hybridBaselineJson : Json :=
  .obj [("generatedAt", .str "2024-01-01T00:00:00Z"),
    ("runtime", .obj [("bunVersion", .str "1.0.0"), ("bunRevision", .null),
      ("platform", .str "linux"), ("arch", .str "x64")]),
    ("options", .obj [("warmupRounds", .num 1), ("rounds", .num 3),
      ("intervalMs", .num 0)]),
    ("metrics", .arr []),
    ("samples", .arr [.obj [("name", .str "json-encode"),
      ("iterations", .num 100), ("durationMs", .num 5),
      ("opsPerSecond", .num 20000)]])]

instance {ε α : Type} [DecidableEq ε] [DecidableEq α] : DecidableEq (Except ε α) :=
  fun a b =>
    match a, b with
    | .error e₁, .error e₂ =>
      if h : e₁ = e₂ then isTrue (by rw [h])
      else isFalse (fun hc => h (Except.error.inj hc))
    | .error _, .ok _ => isFalse (fun hc => Except.noConfusion hc)
    | .ok _, .error _ => isFalse (fun hc => Except.noConfusion hc)
    | .ok a₁, .ok a₂ =>
      if h : a₁ = a₂ then isTrue (by rw [h])
      else isFalse (fun hc => h (Except.ok.inj hc))

/-- C7 counterexample: `hybridBaselineJson` is a legacy single-sample baseline
object (it satisfies the source code classifier `isBaselineReport`), yet
`decodeComparisonSource` does not throw the legacy error on it — the profile
check runs first, so the value is decoded as a profile. -/
theorem decodeComparisonSource_counterexample :
    isBaselineReport hybridBaselineJson = true ∧
    decodeComparisonSource hybridBaselineJson "compare.json" =
      Except.ok ⟨"profile", "compare.json", []⟩ ∧
    decide (decodeComparisonSource hybridBaselineJson "compare.json" =
      Except.error ("legacy single-sample baseline is not supported: " ++
        "compare.json" ++
        ". Use baseline profile generated by tooling bench pack.")) = false :=
  ⟨by decide, by decide, by decide⟩

/-- C7 (amended): `decodeComparisonSource` decodes every object matching the
profile shape into a `ComparisonSource` keyed by metric name; an object
matching the legacy single-sample shape — PROVIDED it does not also match the
profile shape, which is checked first — throws the legacy error; anything
matching neither shape throws the unsupported-format error. -/
theorem decodeComparisonSource_spec (decoded : Json) (comparePath : String) :
    (isBaselineProfile decoded = true →
      decodeComparisonSource decoded comparePath =
        Except.ok ⟨"profile", comparePath, toProfileMetricMap decoded⟩ ∧
      ∀ entry ∈ toProfileMetricMap decoded, entry.1 = entry.2.name) ∧
    (isBaselineProfile decoded = false → isBaselineReport decoded = true →
      decodeComparisonSource decoded comparePath =
        Except.error ("legacy single-sample baseline is not supported: " ++
          comparePath ++
          ". Use baseline profile generated by tooling bench pack.")) ∧
    (isBaselineProfile decoded = false → isBaselineReport decoded = false →
      decodeComparisonSource decoded comparePath =
        Except.error ("unsupported compare file format: " ++ comparePath)) := by
  refine ⟨fun hp => ⟨?_, ?_⟩, fun hp hr => ?_, fun hp hr => ?_⟩
  · rw [decodeComparisonSource, if_pos hp]
  · intro entry hentry
    rcases List.mem_map.1 hentry with ⟨m, _, rfl⟩
    rfl
  · rw [decodeComparisonSource, if_neg (by simp [hp]), if_pos hr]
  · rw [decodeComparisonSource, if_neg (by simp [hp]), if_neg (by simp [hr])]

/-- Witness for C7 at the concrete pure legacy object. -/
theorem decodeComparisonSource_spec_witness :
    (isBaselineProfile legacyBaselineJson = true →
      decodeComparisonSource legacyBaselineJson "baseline.json" =
        Except.ok ⟨"profile", "baseline.json",
          toProfileMetricMap legacyBaselineJson⟩ ∧
      ∀ entry ∈ toProfileMetricMap legacyBaselineJson, entry.1 = entry.2.name) ∧
    (isBaselineProfile legacyBaselineJson = false →
      isBaselineReport legacyBaselineJson = true →
      decodeComparisonSource legacyBaselineJson "baseline.json" =
        Except.error ("legacy single-sample baseline is not supported: " ++
          "baseline.json" ++
          ". Use baseline profile generated by tooling bench pack.")) ∧
    (isBaselineProfile legacyBaselineJson = false →
      isBaselineReport legacyBaselineJson = false →
      decodeComparisonSource legacyBaselineJson "baseline.json" =
        Except.error ("unsupported compare file format: " ++ "baseline.json")) :=
  decodeComparisonSource_spec legacyBaselineJson "baseline.json"

/-! ## Theorems: single-request error handling (C9) -/

/-- C9: when the injected fetch rejects, `runSingleRequest` returns
`{ok: false, durationMs: elapsed}` rather than propagating the rejection; and
when a supplied classifier itself throws, the outcome is `ok = false` with the
measured duration, the exception again not propagating. -/
theorem runSingleRequest_spec (target : HttpBenchmarkTarget)
    (elapsedAtResponse elapsedAtFailure : ℚ) :
    (∀ (e : String) (classify : Option SuccessClassifier),
      runSingleRequest target (Except.error e) classify elapsedAtResponse
        elapsedAtFailure = (false, elapsedAtFailure)) ∧
    (∀ (response : ModelResponse) (c : SuccessClassifier) (ex : String),
      c target ⟨response.status, parseResponseBody response⟩ =
          Except.error ex →
      runSingleRequest target (Except.ok response) (some c) elapsedAtResponse
        elapsedAtFailure = (false, elapsedAtResponse)) := by
  constructor
  · intro e classify
    rfl
  · intro response c ex hc
    simp [runSingleRequest, runSingleRequestAttempt, Except.bind, hc]

/-- Witness for C9: a rejecting fetch and a throwing classifier at concrete
inputs. -/
theorem runSingleRequest_spec_witness :
    (∀ (e : String) (classify : Option SuccessClassifier),
      runSingleRequest ⟨"t", "http://t", "GET"⟩ (Except.error e) classify 7 9 =
        (false, 9)) ∧
    (∀ (response : ModelResponse) (c : SuccessClassifier) (ex : String),
      c ⟨"t", "http://t", "GET"⟩ ⟨response.status, parseResponseBody response⟩ =
          Except.error ex →
      runSingleRequest ⟨"t", "http://t", "GET"⟩ (Except.ok response) (some c) 7 9 =
        (false, 7)) :=
  runSingleRequest_spec ⟨"t", "http://t", "GET"⟩ 7 9

/-! ## Dispatcher invariant lemmas -/

lemma flatMap_drawn_split (pre post : List Worker) (w : Worker) :
    ((pre ++ w :: post).flatMap fun x => x.2.drawn : List ℕ) =
      pre.flatMap (fun x => x.2.drawn) ++
        (w.2.drawn ++ post.flatMap fun x => x.2.drawn) := by
  simp [List.flatMap_append, List.flatMap_cons]

lemma mem_append_cons {x w : Worker} {pre post : List Worker} :
    x ∈ pre ++ w :: post ↔ x ∈ pre ∨ x = w ∨ x ∈ post := by
  simp [List.mem_append, List.mem_cons]

lemma coe_append (l₁ l₂ : List ℕ) :
    ((l₁ ++ l₂ : List ℕ) : Multiset ℕ) = (l₁ : Multiset ℕ) + (l₂ : Multiset ℕ) :=
  Multiset.coe_add l₁ l₂

lemma dispatchInv_init (total concurrency : ℕ) :
    DispatchInv total concurrency (initDispatch concurrency) := by
  have hflat : ∀ n : ℕ,
      ((List.replicate n (WorkerStatus.idle, emptyWorkerLocal)).flatMap
        fun w => w.2.drawn : List ℕ) = [] := by
    intro n
    induction n with
    | zero => rfl
    | succ k ih => simp [List.replicate_succ, List.flatMap_cons, ih, emptyWorkerLocal]
  refine ⟨Nat.zero_le _, List.length_replicate .., ?_, ?_, ?_⟩
  · simp [initDispatch, hflat]
  · intro w hw
    have hw' := List.eq_of_mem_replicate hw
    rw [hw']
    simp [emptyWorkerLocal, pendingList]
  · rintro ⟨w, hw, hdone⟩
    have hw' := List.eq_of_mem_replicate hw
    rw [hw'] at hdone
    exact absurd hdone (by simp)

lemma dispatchInv_step {total concurrency : ℕ} {outcome : ℕ → Bool × ℚ}
    {s s' : DispatchState} (hstep : DispatchStep total outcome s s')
    (hinv : DispatchInv total concurrency s) :
    DispatchInv total concurrency s' := by
  obtain ⟨hle, hlen, hms, hbal, hdone⟩ := hinv
  cases hstep with
  | draw c pre post loc h =>
    replace hle : c ≤ total := hle
    replace hlen : (pre ++ (WorkerStatus.idle, loc) :: post).length = concurrency := hlen
    refine ⟨show c + 1 ≤ total by omega, show _ = concurrency by simpa using hlen,
      ?_, ?_, ?_⟩
    · show ((((pre ++ (WorkerStatus.pending c, drawIndex loc c) :: post)).flatMap
        fun x => x.2.drawn : List ℕ) : Multiset ℕ) = Multiset.range (c + 1)
      replace hms : (((pre ++ (WorkerStatus.idle, loc) :: post).flatMap
        fun x => x.2.drawn : List ℕ) : Multiset ℕ) = Multiset.range c := hms
      rw [flatMap_drawn_split] at hms ⊢
      rw [Multiset.range_succ, ← hms]
      simp only [drawIndex, coe_append, Multiset.coe_singleton,
        ← Multiset.singleton_add]
      abel
    · intro w hw
      rcases mem_append_cons.1 hw with hpre | rfl | hpost
      · exact hbal w (mem_append_cons.2 (Or.inl hpre))
      · have hold := hbal (WorkerStatus.idle, loc)
          (mem_append_cons.2 (Or.inr (Or.inl rfl)))
        simp only [pendingList, drawIndex, List.length_append, List.length_cons,
          List.length_nil] at hold ⊢
        omega
      · exact hbal w (mem_append_cons.2 (Or.inr (Or.inr hpost)))
    · rintro ⟨w, hw, hwdone⟩
      show c + 1 = total
      rcases mem_append_cons.1 hw with hpre | rfl | hpost
      · have hct : c = total := hdone ⟨w, mem_append_cons.2 (Or.inl hpre), hwdone⟩
        omega
      · exact absurd hwdone (by simp)
      · have hct : c = total :=
          hdone ⟨w, mem_append_cons.2 (Or.inr (Or.inr hpost)), hwdone⟩
        omega
  | exit c pre post loc h =>
    replace hle : c ≤ total := hle
    replace hlen : (pre ++ (WorkerStatus.idle, loc) :: post).length = concurrency := hlen
    refine ⟨show c ≤ total from hle, show _ = concurrency by simpa using hlen,
      ?_, ?_, ?_⟩
    · show ((((pre ++ (WorkerStatus.done, loc) :: post)).flatMap
        fun x => x.2.drawn : List ℕ) : Multiset ℕ) = Multiset.range c
      replace hms : (((pre ++ (WorkerStatus.idle, loc) :: post).flatMap
        fun x => x.2.drawn : List ℕ) : Multiset ℕ) = Multiset.range c := hms
      rw [flatMap_drawn_split] at hms ⊢
      exact hms
    · intro w hw
      rcases mem_append_cons.1 hw with hpre | rfl | hpost
      · exact hbal w (mem_append_cons.2 (Or.inl hpre))
      · have hold := hbal (WorkerStatus.idle, loc)
          (mem_append_cons.2 (Or.inr (Or.inl rfl)))
        simpa [pendingList] using hold
      · exact hbal w (mem_append_cons.2 (Or.inr (Or.inr hpost)))
    · intro _
      show c = total
      omega
  | complete c idx pre post loc =>
    replace hle : c ≤ total := hle
    replace hlen : (pre ++ (WorkerStatus.pending idx, loc) :: post).length =
      concurrency := hlen
    refine ⟨show c ≤ total from hle, show _ = concurrency by simpa using hlen,
      ?_, ?_, ?_⟩
    · show ((((pre ++ (WorkerStatus.idle,
          recordOutcome loc (outcome idx)) :: post)).flatMap
        fun x => x.2.drawn : List ℕ) : Multiset ℕ) = Multiset.range c
      replace hms : (((pre ++ (WorkerStatus.pending idx, loc) :: post).flatMap
        fun x => x.2.drawn : List ℕ) : Multiset ℕ) = Multiset.range c := hms
      rw [flatMap_drawn_split] at hms ⊢
      simpa [recordOutcome] using hms
    · intro w hw
      rcases mem_append_cons.1 hw with hpre | rfl | hpost
      · exact hbal w (mem_append_cons.2 (Or.inl hpre))
      · have hold := hbal (WorkerStatus.pending idx, loc)
          (mem_append_cons.2 (Or.inr (Or.inl rfl)))
        simp only [pendingList, recordOutcome, List.length_append,
          List.length_cons, List.length_nil] at hold ⊢
        rcases houtcome : (outcome idx).1 <;> simp [houtcome] <;> omega
      · exact hbal w (mem_append_cons.2 (Or.inr (Or.inr hpost)))
    · rintro ⟨w, hw, hwdone⟩
      show c = total
      rcases mem_append_cons.1 hw with hpre | rfl | hpost
      · exact hdone ⟨w, mem_append_cons.2 (Or.inl hpre), hwdone⟩
      · exact absurd hwdone (by simp)
      · exact hdone ⟨w, mem_append_cons.2 (Or.inr (Or.inr hpost)), hwdone⟩

lemma dispatchInv_reachable {total concurrency : ℕ} {outcome : ℕ → Bool × ℚ}
    {s : DispatchState}
    (hreach : Relation.ReflTransGen (DispatchStep total outcome)
      (initDispatch concurrency) s) :
    DispatchInv total concurrency s := by
  induction hreach with
  | refl => exact dispatchInv_init total concurrency
  | tail _ hstep ih => exact dispatchInv_step hstep ih

lemma mergeWorkerResults_eq (items : List WorkerLocal) :
    mergeWorkerResults items =
      ⟨items.flatMap fun item => item.latencies,
        (items.map fun item => item.successCount).sum,
        (items.map fun item => item.failureCount).sum⟩ := by
  suffices haux : ∀ acc : MergedResult,
      items.foldl
        (fun acc item =>
          ⟨acc.latenciesMs ++ item.latencies,
            acc.successCount + item.successCount,
            acc.failureCount + item.failureCount⟩)
        acc =
      ⟨acc.latenciesMs ++ items.flatMap fun item => item.latencies,
        acc.successCount + (items.map fun item => item.successCount).sum,
        acc.failureCount + (items.map fun item => item.failureCount).sum⟩ by
    rw [mergeWorkerResults, haux ⟨[], 0, 0⟩]
    simp
  induction items with
  | nil => intro acc; simp
  | cons a t ih =>
    intro acc
    rw [List.foldl_cons, ih]
    simp [List.flatMap_cons, Nat.add_assoc]

lemma sum_map_add {α : Type} (l : List α) (f g : α → ℕ) :
    (l.map fun a => f a + g a).sum = (l.map f).sum + (l.map g).sum := by
  induction l with
  | nil => rfl
  | cons a t ih =>
    simp only [List.map_cons, List.sum_cons, ih]
    omega

/-! ## Theorems: dispatcher correctness (C5) -/

/-- C5: under the cooperative scheduling model (the shared-counter read and
increment form one non-suspending step; workers suspend only at the awaited
request), every complete run of the worker pool with `requests ≥ 1` and
`concurrency ≥ 1` draws each request index in `[0, requests)` exactly once,
executes exactly `requests` measured requests in total, and the merged result
satisfies `latenciesMs.length = successCount + failureCount`. -/
theorem dispatcher_spec (requests concurrency : ℕ) (outcome : ℕ → Bool × ℚ)
    (hreq : 1 ≤ requests) (hconc : 1 ≤ concurrency) (s : DispatchState)
    (hreach : Relation.ReflTransGen (DispatchStep requests outcome)
      (initDispatch concurrency) s)
    (hdone : ∀ w ∈ s.workers, w.1 = WorkerStatus.done) :
    ((s.workers.flatMap fun w => w.2.drawn : List ℕ) : Multiset ℕ) =
      Multiset.range requests ∧
    (∀ i : ℕ,
      ((s.workers.flatMap fun w => w.2.drawn : List ℕ) : Multiset ℕ).count i =
        if i < requests then 1 else 0) ∧
    (mergeWorkerResults (s.workers.map Prod.snd)).latenciesMs.length =
      requests ∧
    (mergeWorkerResults (s.workers.map Prod.snd)).latenciesMs.length =
      (mergeWorkerResults (s.workers.map Prod.snd)).successCount +
        (mergeWorkerResults (s.workers.map Prod.snd)).failureCount := by
  obtain ⟨hle, hlen, hms, hbal, hdimp⟩ := dispatchInv_reachable hreach
  have hnonempty : s.workers ≠ [] := by
    intro hnil
    rw [hnil] at hlen
    simp at hlen
    omega
  obtain ⟨w₀, hw₀⟩ := List.exists_mem_of_ne_nil s.workers hnonempty
  have hctotal : s.nextRequest = requests := hdimp ⟨w₀, hw₀, hdone w₀ hw₀⟩
  have hmulti : ((s.workers.flatMap fun w => w.2.drawn : List ℕ) : Multiset ℕ) =
      Multiset.range requests := by
    rw [hms, hctotal]
  have hlatlen : ∀ w ∈ s.workers, w.2.latencies.length = w.2.drawn.length := by
    intro w hw
    have hb := (hbal w hw).2
    have hp : pendingList w.1 = [] := by
      rw [hdone w hw]
      rfl
    rw [hp] at hb
    simpa using hb
  have hmerge := mergeWorkerResults_eq (s.workers.map Prod.snd)
  have hdrawlen : (s.workers.flatMap fun w => w.2.drawn).length = requests := by
    have hcard := congrArg Multiset.card hmulti
    simpa [Multiset.coe_card, Multiset.card_range] using hcard
  have hlatsum :
      (mergeWorkerResults (s.workers.map Prod.snd)).latenciesMs.length =
        (s.workers.map fun w => w.2.latencies.length).sum := by
    rw [hmerge, List.length_flatMap, List.map_map]
    rfl
  refine ⟨hmulti, ?_, ?_, ?_⟩
  · intro i
    rw [hmulti]
    by_cases hi : i < requests
    · rw [if_pos hi]
      exact Multiset.count_eq_one_of_mem (Multiset.nodup_range requests)
        (Multiset.mem_range.2 hi)
    · rw [if_neg hi]
      exact Multiset.count_eq_zero_of_not_mem fun hc => hi (Multiset.mem_range.1 hc)
  · rw [hlatsum, List.map_congr_left hlatlen]
    rw [List.length_flatMap] at hdrawlen
    simpa [Function.comp] using hdrawlen
  · rw [hlatsum, hmerge]
    have hbal1 : (s.workers.map fun w => w.2.latencies.length).sum =
        (s.workers.map fun w => w.2.successCount + w.2.failureCount).sum := by
      rw [List.map_congr_left fun w hw => (hbal w hw).1]
    rw [hbal1, sum_map_add]
    simp [List.map_map]
    rfl

/-- Witness for C5: a complete concrete run with one worker and one request.
The worker draws index 0, completes it with outcome `(true, 5)`, observes the
exhausted budget and exits. -/
theorem dispatcher_spec_witness :
    (((DispatchState.mk 1 [(WorkerStatus.done,
        WorkerLocal.mk [5] 1 0 [0])]).workers.flatMap
          fun w => w.2.drawn : List ℕ) : Multiset ℕ) = Multiset.range 1 ∧
    (∀ i : ℕ,
      (((DispatchState.mk 1 [(WorkerStatus.done,
          WorkerLocal.mk [5] 1 0 [0])]).workers.flatMap
            fun w => w.2.drawn : List ℕ) : Multiset ℕ).count i =
        if i < 1 then 1 else 0) ∧
    (mergeWorkerResults ((DispatchState.mk 1 [(WorkerStatus.done,
        WorkerLocal.mk [5] 1 0 [0])]).workers.map Prod.snd)).latenciesMs.length =
      1 ∧
    (mergeWorkerResults ((DispatchState.mk 1 [(WorkerStatus.done,
        WorkerLocal.mk [5] 1 0 [0])]).workers.map Prod.snd)).latenciesMs.length =
      (mergeWorkerResults ((DispatchState.mk 1 [(WorkerStatus.done,
        WorkerLocal.mk [5] 1 0 [0])]).workers.map Prod.snd)).successCount +
        (mergeWorkerResults ((DispatchState.mk 1 [(WorkerStatus.done,
          WorkerLocal.mk [5] 1 0 [0])]).workers.map Prod.snd)).failureCount :=
  dispatcher_spec 1 1 (fun _ => (true, 5)) (by omega) (by omega)
    (DispatchState.mk 1 [(WorkerStatus.done, WorkerLocal.mk [5] 1 0 [0])])
    (Relation.ReflTransGen.head
      (DispatchStep.draw 0 [] [] emptyWorkerLocal (by omega))
      (Relation.ReflTransGen.head
        (DispatchStep.complete 1 0 [] [] (WorkerLocal.mk [] 0 0 [0]))
        (Relation.ReflTransGen.head
          (DispatchStep.exit 1 [] [] (WorkerLocal.mk [5] 1 0 [0]) (by omega))
          Relation.ReflTransGen.refl)))
    (by decide)

end Meristem
